import Mathlib

/-!
Verification of the kaltura_uploader repository against its specification.

The development shallowly embeds the algorithmic core of the repository:

* `kaltura_uploader/mime_utils.py` — MIME-based entry-type classification;
* `kaltura_uploader/uploader.py` — chunked upload loop, upload-token
  finalization polling, adaptive chunk sizing, entry-creation prechecks;
* `decorators.py` — the exponential-backoff retry wrapper.

Remote calls, clocks and the file system are modelled as explicit inputs
(poll outcomes, per-attempt operation results, observed durations, read
sizes); Python floats are modelled as exact rationals; Python exceptions
become explicit result constructors.
-/

namespace KalturaSpec

/-- Occurrence of `pat` as a contiguous run inside `l`
(the Python `pat in s` test on strings, over the character list). -/
def subOcc (pat : List Char) : List Char → Bool
  | [] => pat.isEmpty
  | c :: rest => pat.isPrefixOf (c :: rest) || subOcc pat rest

/-- Python `pat in hay` for strings. -/
def strContains (hay pat : String) : Bool := subOcc pat.data hay.data

/-- Python `s.startswith(pre)`. -/
def strStartsWith (s pre : String) : Bool := pre.data.isPrefixOf s.data

/-- Python `s.lower()`, modelled character-wise. -/
def lowerStr (s : String) : String := ⟨s.data.map Char.toLower⟩

/-- Classification rules of `guess_kaltura_entry_type`
(`mime_utils.py` lines 53-65), applied to the already-lowercased MIME string. -/
def classifyLowered (m : String) : String :=
  if strStartsWith m "image/" || strStartsWith m "audio/" || strStartsWith m "video/" then
    "media"
  else if m == "application/pdf"
      || m == "application/x-shockwave-flash"
      || strStartsWith m "application/msword"
      || strContains m "application/vnd.openxmlformats-officedocument" then
    "document"
  else
    "data"

/-- Outcome of the content-sniffing step in `guess_kaltura_entry_type`
(`mime_utils.py` lines 25-42): the sniffer returned a MIME string, the
sniffer raised (any exception is caught and the code falls back to the
extension guess), or the sniffer library is absent. -/
inductive SniffOutcome
  | sniffed (mime : String)
  | sniffFailed
  | noSniffer
deriving DecidableEq

/-- The MIME value `guess_kaltura_entry_type` ends up inspecting:
the sniffed string when sniffing succeeded, otherwise the result of
`mimetypes.guess_type` (which may be absent). -/
def detectMime : SniffOutcome → Option String → Option String
  | .sniffed m, _ => some m
  | .sniffFailed, extGuess => extGuess
  | .noSniffer, extGuess => extGuess

/-- `mime_utils.guess_kaltura_entry_type`: a falsy detected MIME value
(`None` or the empty string) yields `"data"`; otherwise the detected MIME
string is lowercased and the classification rules are applied. -/
def guess_kaltura_entry_type (sniff : SniffOutcome) (extGuess : Option String) : String :=
  match detectMime sniff extGuess with
  | none => "data"
  | some mt => if mt = "" then "data" else classifyLowered (lowerStr mt)

/-- The enum value `KalturaUploadTokenStatus.FULL_UPLOAD`. -/
def FULL_UPLOAD : Nat := 2

/-- An upload token as fetched from the remote service
(`KalturaUploadToken`): status is the raw enum value. -/
structure UploadToken where
  id : String
  fileName : String
  fileSize : Nat
  status : Nat
  uploadedFileSize : Nat
deriving DecidableEq

/-- `KalturaUploader._validate_upload_token_status` (`uploader.py` lines
356-378): returns `True` exactly when the token status equals
`FULL_UPLOAD`; the `file_size` argument is used only in the log message. -/
def validate_upload_token_status (t : UploadToken) (file_size : Nat) : Bool :=
  t.status == FULL_UPLOAD

/-- One iteration of the finalize polling loop as seen from outside:
`uploadToken.get` either returned a token or raised
(`KalturaException` / network error) with the given message. -/
inductive PollOutcome
  | fetched (t : UploadToken)
  | fetchError (msg : String)
deriving DecidableEq

/-- How `_finalize_upload_token` terminates. -/
inductive FinalizeResult
  | success
  | raisedError (msg : String)
  | tokenNotFinalized (msg : String)
deriving DecidableEq

/-- `max_attempts` of `_finalize_upload_token` (`uploader.py` line 302). -/
def max_attempts : Nat := 5

/-- Message of `TokenNotFinalizedError` (`uploader.py` lines 352-354). -/
def notFinalizedMsg (upload_token_id : String) : String :=
  "Upload token " ++ upload_token_id ++ " not finalized after "
    ++ toString max_attempts ++ " attempts."

/-- The polling loop of `_finalize_upload_token` (`uploader.py` lines
315-354), driven by the list of remaining poll outcomes and the last
recorded fetch exception: a fetched token that validates returns success
immediately; a fetched token that does not validate moves to the next
attempt; a fetch error is recorded and polling continues; when the
attempts are exhausted, the last fetch error (if any) is re-raised,
otherwise `TokenNotFinalizedError` is raised. -/
def finalizeGo (upload_token_id : String) (file_size : Nat) :
    List PollOutcome → Option String → FinalizeResult
  | [], none => .tokenNotFinalized (notFinalizedMsg upload_token_id)
  | [], some e => .raisedError e
  | .fetched t :: rest, lastExc =>
      if validate_upload_token_status t file_size then .success
      else finalizeGo upload_token_id file_size rest lastExc
  | .fetchError e :: rest, _ =>
      finalizeGo upload_token_id file_size rest (some e)

/-- `KalturaUploader._finalize_upload_token`: at most `max_attempts` polls
are consumed from the environment-provided outcome stream. -/
def finalize_upload_token (upload_token_id : String) (file_size : Nat)
    (polls : List PollOutcome) : FinalizeResult :=
  finalizeGo upload_token_id file_size (polls.take max_attempts) none

/-- Result of the call `self._finalize_upload_token(...)` inside
`upload_file`: it either returned, or raised a `KalturaException`
carrying the given message. -/
inductive FinalizeCallResult
  | ok
  | kalturaError (msg : String)
deriving DecidableEq

/-- How `upload_file` terminates. -/
inductive UploadOutcome
  | tokenId (id : String)
  | raised (msg : String)
deriving DecidableEq

/-- Step 3 of `KalturaUploader.upload_file` (`uploader.py` lines 192-210):
finalize, and on a `KalturaException` whose text contains
`UPLOAD_TOKEN_NOT_FOUND` with `offset >= file_size`, treat the token as
auto-finalized by the server and return the token id; any other error is
re-raised. -/
def uploadFinalizeStep (upload_token_id : String) (offset file_size : Nat)
    (fin : FinalizeCallResult) : UploadOutcome :=
  match fin with
  | .ok => .tokenId upload_token_id
  | .kalturaError msg =>
      if strContains msg "UPLOAD_TOKEN_NOT_FOUND" && decide (offset ≥ file_size) then
        .tokenId upload_token_id
      else
        .raised msg

/-- One chunk as sent by `_upload_chunk` (`uploader.py` lines 241-258):
the multipart fields `resume`, `resumeAt`, `finalChunk` together with the
chunk position and byte length. -/
structure ChunkSend where
  offset : Nat
  length : Nat
  resume : Bool
  resumeAt : Nat
  finalChunk : Bool
deriving DecidableEq

/-- Default chunk record used with `List.getD`. -/
def dfltChunk : ChunkSend := ⟨0, 0, false, 0, false⟩

/-- The chunked upload loop of `upload_file` (`uploader.py` lines 169-190).
`sizes i` is `self.chunk_size_bytes` at the start of iteration `i` (the
adaptive step may change it between iterations); `infile.read n` returns
`min n (file_size - offset)` bytes, and a zero-byte read breaks the loop.
`fuel` bounds the iteration count and is instantiated with `file_size`,
which suffices whenever every chunk size is positive. -/
def transferGo (sizes : Nat → Nat) (file_size : Nat) :
    Nat → Nat → Nat → List ChunkSend
  | 0, _, _ => []
  | fuel + 1, step, offset =>
    if offset < file_size then
      if min (sizes step) (file_size - offset) = 0 then []
      else
        { offset := offset, length := min (sizes step) (file_size - offset),
          resume := decide (0 < offset), resumeAt := offset,
          finalChunk := decide (file_size ≤ offset + min (sizes step) (file_size - offset)) }
          :: transferGo sizes file_size fuel (step + 1)
              (offset + min (sizes step) (file_size - offset))
    else []

/-- The sequence of chunk sends performed by `upload_file` on a file of
`file_size` bytes, when the chunk size at iteration `i` is `sizes i`. -/
def transfer (sizes : Nat → Nat) (file_size : Nat) : List ChunkSend :=
  transferGo sizes file_size file_size 0 0

/-- Specification predicate for the chunk list produced from offset
`off`: offsets are contiguous, `resumeAt` mirrors the offset, `resume` is
set exactly for non-zero offsets, every chunk is non-empty, and the final
flag is set exactly on the last chunk, which reaches `file_size`. -/
def goodFrom (file_size : Nat) : Nat → List ChunkSend → Prop
  | _, [] => False
  | off, c :: rest =>
    c.offset = off ∧ c.resumeAt = off ∧ c.resume = decide (0 < off) ∧ 1 ≤ c.length ∧
    (match rest with
     | [] => off + c.length = file_size ∧ c.finalChunk = true
     | _ :: _ => off + c.length < file_size ∧ c.finalChunk = false
         ∧ goodFrom file_size (off + c.length) rest)

/-- An exception raised by the wrapped operation of the `retry` decorator
(`decorators.py`): `retryable` records whether its type matches the
`exceptions` tuple of the decorator. -/
structure RaisedError where
  retryable : Bool
  msg : String
deriving DecidableEq

/-- The attempt loop of the `retry` decorator (`decorators.py` lines
26-42). `op attempt` is the outcome of calling the wrapped function on
the given (1-based) attempt; the first component is the propagated result
(`none` only in the degenerate `max_attempts = 0` case, where the Python
loop body never runs), the second the list of performed sleeps. A
non-matching exception is not caught and propagates at once; a matching
exception on the final attempt is re-raised unchanged; otherwise the loop
sleeps `delay` and retries with `delay * backoff`. -/
def retryGo {α : Type} (op : Nat → Except RaisedError α) (backoff : ℚ) :
    Nat → Nat → ℚ → Option (Except RaisedError α) × List ℚ
  | 0, _, _ => (none, [])
  | remaining + 1, attempt, delay =>
    match op attempt with
    | .ok a => (some (.ok a), [])
    | .error e =>
      if e.retryable then
        if remaining = 0 then (some (.error e), [])
        else
          ((retryGo op backoff remaining (attempt + 1) (delay * backoff)).1,
            delay :: (retryGo op backoff remaining (attempt + 1) (delay * backoff)).2)
      else (some (.error e), [])

/-- `retry(exceptions, max_attempts, initial_delay, backoff_factor)`
applied to an operation: attempts are numbered from 1. -/
def retryRun {α : Type} (op : Nat → Except RaisedError α) (maxAttempts : Nat)
    (initialDelay backoff : ℚ) : Option (Except RaisedError α) × List ℚ :=
  retryGo op backoff maxAttempts 1 initialDelay

/-- A concrete operation that fails with a retryable network error on
attempts 1 and 2 and succeeds on attempt 3. -/
def opC6 : Nat → Except RaisedError Nat :=
  fun i => if i < 3 then .error ⟨true, "neterr"⟩ else .ok 42

/-- The chunk-sizing configuration held by `KalturaUploader`
(`uploader.py` lines 81-84), with the float fields as exact rationals. -/
structure UploaderCfg where
  adaptive_chunking : Bool
  target_upload_time : ℚ
  min_chunk_size_kb : ℚ
  max_chunk_size_kb : ℚ
deriving DecidableEq

/-- `KalturaUploader._adjust_chunk_size` (`uploader.py` lines 125-142),
acting on the `chunk_size_kb` state: disabled when adaptive chunking is
off or the observed time is non-positive; otherwise the new size is the
average of the previous size and the ideal size derived from the observed
speed, clamped to the configured KB bounds. -/
def adjust_chunk_size (cfg : UploaderCfg) (chunk_size_kb : ℚ)
    (upload_time : ℚ) (current_chunk_size_bytes : ℚ) : ℚ :=
  if ¬ cfg.adaptive_chunking ∨ upload_time ≤ 0 then chunk_size_kb
  else
    let current_chunk_kb := current_chunk_size_bytes / 1024
    let current_speed_kb_s := current_chunk_kb / upload_time
    let ideal_chunk_size_kb := current_speed_kb_s * cfg.target_upload_time
    let new_chunk_size_kb := (chunk_size_kb + ideal_chunk_size_kb) / 2
    max cfg.min_chunk_size_kb (min cfg.max_chunk_size_kb new_chunk_size_kb)

/-- The chunk-sizing state produced by `KalturaUploader.__init__`. -/
structure UploaderState where
  cfg : UploaderCfg
  chunk_size_kb : ℚ
deriving DecidableEq

/-- The chunk-size part of `KalturaUploader.__init__` (`uploader.py`
lines 71-87): rejects `chunk_size_kb < 1`, otherwise stores the given
chunk size unchanged — it is not clamped to the configured bounds. -/
def mkUploader (chunk_size_kb : Int) (adaptive_chunking : Bool)
    (target_upload_time min_chunk_size_kb max_chunk_size_kb : ℚ) :
    Except String UploaderState :=
  if chunk_size_kb < 1 then .error "chunk_size_kb must be at least 1 KB"
  else .ok
    { cfg :=
        { adaptive_chunking := adaptive_chunking
          target_upload_time := target_upload_time
          min_chunk_size_kb := min_chunk_size_kb
          max_chunk_size_kb := max_chunk_size_kb }
      chunk_size_kb := (chunk_size_kb : ℚ) }

/-- One observed chunk transfer: wall-clock duration and chunk byte
length, as fed to `_adjust_chunk_size` by `upload_file` line 190. -/
def stepChunkSize (cfg : UploaderCfg) (kb : ℚ) (obs : ℚ × ℚ) : ℚ :=
  adjust_chunk_size cfg kb obs.1 obs.2

/-- The `chunk_size_kb` state after a sequence of observed transfers. -/
def runAdaptive (cfg : UploaderCfg) (kb : ℚ) (obss : List (ℚ × ℚ)) : ℚ :=
  obss.foldl (stepChunkSize cfg) kb

/-- Result of the `uploadToken.get` call at the start of
`create_kaltura_entry` (`uploader.py` lines 404-442). -/
inductive TokenFetchResult
  | ok (status : Nat)
  | kalturaError (msg : String)
deriving DecidableEq

/-- How `create_kaltura_entry` terminates in the modelled fragment. -/
inductive EntryCreationOutcome
  | created (entryId : String)
  | fileTypeRestricted (ext : String) (mime : Option String) (msg : String)
  | runtimeError (msg : String)
  | kalturaRaised (msg : String)
deriving DecidableEq

/-- Message of `FileTypeRestrictedError` (`uploader.py` lines 434-438),
with the Python single quotes around the extension elided. -/
def fileTypeRestrictedMsg (file_ext : String) (mime : Option String) : String :=
  "The file type " ++ file_ext ++ " (" ++ mime.getD "unknown"
    ++ ") appears to be restricted by your Kaltura account settings. "
    ++ "The upload token was automatically deleted. "
    ++ "Please check your Kaltura account configuration to allow this file type."

/-- `KalturaUploader.create_kaltura_entry` (`uploader.py` lines 401-475).
`fetch` is the outcome of the initial `uploadToken.get`; `file_ext` and
`mime_detected` are the extension and MIME type re-derived from the file
path; `createResult` is the entry id the dispatched add-from-uploaded-file
call would return. The boolean records whether that remote call was
issued. A fetched status other than `FULL_UPLOAD` raises `RuntimeError`
(which the surrounding `except KalturaException` does not catch); a fetch
failure whose text contains `UPLOAD_TOKEN_NOT_FOUND` raises
`FileTypeRestrictedError` carrying the re-derived extension and MIME
type; any other fetch failure is re-raised. -/
def create_kaltura_entry (upload_token_id : String) (fetch : TokenFetchResult)
    (file_ext : String) (mime_detected : Option String)
    (createResult : String) : EntryCreationOutcome × Bool :=
  match fetch with
  | .ok status =>
      if status ≠ FULL_UPLOAD then
        (.runtimeError ("Upload token " ++ upload_token_id
          ++ " not finalized (status: " ++ toString status ++ ")."), false)
      else
        (.created createResult, true)
  | .kalturaError msg =>
      if strContains msg "UPLOAD_TOKEN_NOT_FOUND" then
        (.fileTypeRestricted file_ext mime_detected
          (fileTypeRestrictedMsg file_ext mime_detected), false)
      else
        (.kalturaRaised msg, false)

/-- A token whose status is FULL_UPLOAD while its uploaded byte count
disagrees with the declared file size. -/
def tokenC1 : UploadToken :=
  { id := "tok1", fileName := "a.bin", fileSize := 10,
    status := FULL_UPLOAD, uploadedFileSize := 4 }

theorem isPrefixOf_self_append (pat rest : List Char) :
    pat.isPrefixOf (pat ++ rest) = true := by
  induction pat with
  | nil => simp
  | cons c cs ih => simp [List.isPrefixOf_cons₂, ih]

theorem subOcc_nil_pat (l : List Char) : subOcc [] l = true := by
  cases l <;> simp [subOcc]

theorem subOcc_self_append (pat b : List Char) : subOcc pat (pat ++ b) = true := by
  cases pat with
  | nil => simpa using subOcc_nil_pat b
  | cons c cs =>
      show subOcc (c :: cs) (c :: (cs ++ b)) = true
      simp [subOcc, isPrefixOf_self_append]

theorem subOcc_append_left (pat l : List Char) (h : subOcc pat l = true) :
    ∀ a : List Char, subOcc pat (a ++ l) = true := by
  intro a
  induction a with
  | nil => simpa using h
  | cons c cs ih =>
      show subOcc pat (c :: (cs ++ l)) = true
      simp [subOcc, ih]

theorem lowerStr_eq_empty_iff (s : String) : lowerStr s = "" ↔ s = "" := by
  constructor
  · intro h
    have hd : (lowerStr s).data = ("" : String).data := congrArg String.data h
    have : s.data.map Char.toLower = [] := hd
    have hnil : s.data = [] := List.map_eq_nil_iff.mp this
    cases s with
    | mk d => cases hnil; rfl
  · intro h; subst h; rfl

/-- C9: classification is total — for every sniffing outcome and extension
guess it returns one of `media`, `document`, `data`; a missing detected
MIME type (both sniffing and extension guessing produced nothing) yields
`data`; and a detected MIME type is classified by the stated prefix,
equality and containment rules (applied, per C10, to the lowercased
string). -/
theorem guess_entry_type_total_and_rules (sniff : SniffOutcome) (extGuess : Option String) :
    (guess_kaltura_entry_type sniff extGuess = "media"
      ∨ guess_kaltura_entry_type sniff extGuess = "document"
      ∨ guess_kaltura_entry_type sniff extGuess = "data")
    ∧ (detectMime sniff extGuess = none →
        guess_kaltura_entry_type sniff extGuess = "data")
    ∧ (∀ m : String, detectMime sniff extGuess = some m →
        guess_kaltura_entry_type sniff extGuess =
          (if strStartsWith (lowerStr m) "image/" || strStartsWith (lowerStr m) "audio/"
              || strStartsWith (lowerStr m) "video/" then "media"
           else if lowerStr m == "application/pdf"
              || lowerStr m == "application/x-shockwave-flash"
              || strStartsWith (lowerStr m) "application/msword"
              || strContains (lowerStr m) "application/vnd.openxmlformats-officedocument"
              then "document"
           else "data")) := by
  refine ⟨?_, ?_, ?_⟩
  · unfold guess_kaltura_entry_type
    rcases detectMime sniff extGuess with _ | mt
    · simp
    · by_cases h0 : mt = ""
      · simp [h0]
      · simp only [if_neg h0]
        unfold classifyLowered
        split_ifs <;> simp
  · intro h
    simp [guess_kaltura_entry_type, h]
  · intro m hm
    simp only [guess_kaltura_entry_type, hm]
    by_cases h0 : m = ""
    · subst h0
      simp only [if_pos rfl]
      decide
    · simp [h0, classifyLowered]

/-- C9 witness: the theorem instantiated at a concretely sniffed MIME
type. -/
theorem guess_entry_type_total_and_rules_witness :
    (guess_kaltura_entry_type (.sniffed "IMAGE/PNG") none = "media"
      ∨ guess_kaltura_entry_type (.sniffed "IMAGE/PNG") none = "document"
      ∨ guess_kaltura_entry_type (.sniffed "IMAGE/PNG") none = "data")
    ∧ (detectMime (.sniffed "IMAGE/PNG") none = none →
        guess_kaltura_entry_type (.sniffed "IMAGE/PNG") none = "data")
    ∧ (∀ m : String, detectMime (.sniffed "IMAGE/PNG") none = some m →
        guess_kaltura_entry_type (.sniffed "IMAGE/PNG") none =
          (if strStartsWith (lowerStr m) "image/" || strStartsWith (lowerStr m) "audio/"
              || strStartsWith (lowerStr m) "video/" then "media"
           else if lowerStr m == "application/pdf"
              || lowerStr m == "application/x-shockwave-flash"
              || strStartsWith (lowerStr m) "application/msword"
              || strContains (lowerStr m) "application/vnd.openxmlformats-officedocument"
              then "document"
           else "data")) :=
  guess_entry_type_total_and_rules (.sniffed "IMAGE/PNG") none

/-- C10: the detected MIME string is lowercased before the rules are
applied, so two MIME strings with the same lowercasing classify
identically; in particular a sniffed IMAGE/PNG is media and
Application/PDF is a document. -/
theorem guess_entry_type_case_insensitive :
    (∀ s₁ s₂ : String, lowerStr s₁ = lowerStr s₂ →
        ∀ extGuess, guess_kaltura_entry_type (.sniffed s₁) extGuess
          = guess_kaltura_entry_type (.sniffed s₂) extGuess)
    ∧ guess_kaltura_entry_type (.sniffed "IMAGE/PNG") none = "media"
    ∧ guess_kaltura_entry_type (.sniffed "Application/PDF") none = "document" := by
  refine ⟨?_, by decide, by decide⟩
  intro s₁ s₂ h extGuess
  simp only [guess_kaltura_entry_type, detectMime]
  by_cases h1 : s₁ = ""
  · have h2 : s₂ = "" := by
      have : lowerStr s₂ = "" := by rw [← h, h1]; rfl
      exact (lowerStr_eq_empty_iff s₂).mp this
    simp [h1, h2]
  · have h2 : s₂ ≠ "" := by
      intro he
      exact h1 ((lowerStr_eq_empty_iff s₁).mp (by rw [h, he]; rfl))
    simp only [if_neg h1, if_neg h2, h]

/-- C10 witness: the theorem applied to a concrete pair differing only in
letter case. -/
theorem guess_entry_type_case_insensitive_witness :
    lowerStr "ImAgE/Jpeg" = lowerStr "image/jpeg"
    ∧ guess_kaltura_entry_type (.sniffed "ImAgE/Jpeg") none
        = guess_kaltura_entry_type (.sniffed "image/jpeg") none :=
  ⟨by decide, guess_entry_type_case_insensitive.1 "ImAgE/Jpeg" "image/jpeg" (by decide) none⟩

/-- C1 counterexample: at a concrete token whose status is FULL_UPLOAD
but whose uploadedFileSize (4) differs from the expected size (10), the
poll succeeds — `_validate_upload_token_status` returns true and the
finalize loop returns success at once — so success is not equivalent to
FULL_UPLOAD together with a matching uploadedFileSize, and a mismatch at
FULL_UPLOAD is not treated as not-yet-complete. -/
theorem validate_size_mismatch_cex :
    tokenC1.status = FULL_UPLOAD
    ∧ tokenC1.uploadedFileSize ≠ 10
    ∧ validate_upload_token_status tokenC1 10 = true
    ∧ finalize_upload_token "tok1" 10 [.fetched tokenC1] = .success
    ∧ ¬ (validate_upload_token_status tokenC1 10 = true ↔
          (tokenC1.status = FULL_UPLOAD ∧ tokenC1.uploadedFileSize = 10)) := by
  decide

/-- C1 amended: a poll succeeds exactly when the fetched token's status
is FULL_UPLOAD; the expected file size is never consulted (it appears
only in the log message), so a FULL_UPLOAD token terminates polling
successfully whatever its uploadedFileSize. -/
theorem validate_is_status_only :
    (∀ (t : UploadToken) (fs fs' : Nat),
        validate_upload_token_status t fs = validate_upload_token_status t fs')
    ∧ (∀ (t : UploadToken) (fs : Nat),
        validate_upload_token_status t fs = true ↔ t.status = FULL_UPLOAD)
    ∧ (∀ (upload_token_id : String) (fs : Nat) (t : UploadToken)
          (rest : List PollOutcome), t.status = FULL_UPLOAD →
        finalize_upload_token upload_token_id fs (.fetched t :: rest) = .success) := by
  refine ⟨fun t fs fs' => rfl, ?_, ?_⟩
  · intro t fs
    simp [validate_upload_token_status]
  · intro upload_token_id fs t rest h
    simp [finalize_upload_token, max_attempts, finalizeGo,
      validate_upload_token_status, h]

/-- C1 amended witness: the finalize clause applied to a concrete
FULL_UPLOAD token whose uploadedFileSize (3) differs from the expected
size (7). -/
theorem validate_is_status_only_witness :
    finalize_upload_token "t" 7
      [.fetched { id := "t", fileName := "f", fileSize := 7,
                  status := FULL_UPLOAD, uploadedFileSize := 3 }] = .success :=
  validate_is_status_only.2.2 "t" 7
    { id := "t", fileName := "f", fileSize := 7,
      status := FULL_UPLOAD, uploadedFileSize := 3 } [] (by decide)

theorem finalizeGo_all_invalid (upload_token_id : String) (fs : Nat) :
    ∀ ts : List UploadToken, (∀ t ∈ ts, t.status ≠ FULL_UPLOAD) →
      finalizeGo upload_token_id fs (ts.map .fetched) none
        = .tokenNotFinalized (notFinalizedMsg upload_token_id) := by
  intro ts
  induction ts with
  | nil => intro _; rfl
  | cons t ts ih =>
      intro h
      have ht : t.status ≠ FULL_UPLOAD := h t (by simp)
      have hrest : ∀ t' ∈ ts, t'.status ≠ FULL_UPLOAD :=
        fun t' ht' => h t' (by simp [ht'])
      simp only [List.map_cons, finalizeGo, validate_upload_token_status]
      rw [if_neg (by simpa using ht)]
      exact ih hrest

/-- C5: when all five polls fetch a token that never reaches FULL_UPLOAD
(no fetch raises), finalize fails with TokenNotFinalized, whose message
names the token id and the attempt count 5. -/
theorem finalize_exhaustion_tokenNotFinalized (upload_token_id : String)
    (fs : Nat) (ts : List UploadToken) (hlen : ts.length = 5)
    (hst : ∀ t ∈ ts, t.status ≠ FULL_UPLOAD) :
    finalize_upload_token upload_token_id fs (ts.map .fetched)
      = .tokenNotFinalized (notFinalizedMsg upload_token_id)
    ∧ strContains (notFinalizedMsg upload_token_id) upload_token_id = true
    ∧ strContains (notFinalizedMsg upload_token_id) "5" = true := by
  refine ⟨?_, ?_, ?_⟩
  · unfold finalize_upload_token
    rw [← List.map_take]
    exact finalizeGo_all_invalid upload_token_id fs (ts.take max_attempts)
      (fun t ht => hst t (List.take_subset max_attempts ts ht))
  · show subOcc upload_token_id.data (notFinalizedMsg upload_token_id).data = true
    have hd : (notFinalizedMsg upload_token_id).data =
        ("Upload token ").data ++ (upload_token_id.data ++
          ((" not finalized after ").data ++ ((toString max_attempts).data
            ++ (" attempts.").data))) := by
      simp [notFinalizedMsg, String.data_append, List.append_assoc]
    rw [hd]
    exact subOcc_append_left _ _ (subOcc_self_append _ _) _
  · show subOcc ("5" : String).data (notFinalizedMsg upload_token_id).data = true
    have h5 : (toString max_attempts : String) = "5" := rfl
    have hd : (notFinalizedMsg upload_token_id).data =
        ("Upload token ").data ++ (upload_token_id.data ++
          ((" not finalized after ").data ++ (("5" : String).data
            ++ (" attempts.").data))) := by
      simp [notFinalizedMsg, h5, String.data_append, List.append_assoc]
    rw [hd]
    exact subOcc_append_left _ _
      (subOcc_append_left _ _
        (subOcc_append_left _ _ (subOcc_self_append _ _) _) _) _

/-- C5 witness: the theorem applied to five concrete polls that all fetch
a pending token. -/
theorem finalize_exhaustion_tokenNotFinalized_witness :
    finalize_upload_token "tk" 9
      (List.map PollOutcome.fetched
        (List.replicate 5
          { id := "tk", fileName := "f", fileSize := 9,
            status := 0, uploadedFileSize := 0 }))
      = .tokenNotFinalized (notFinalizedMsg "tk")
    ∧ strContains (notFinalizedMsg "tk") "tk" = true
    ∧ strContains (notFinalizedMsg "tk") "5" = true :=
  finalize_exhaustion_tokenNotFinalized "tk" 9
    (List.replicate 5
      { id := "tk", fileName := "f", fileSize := 9,
        status := 0, uploadedFileSize := 0 })
    (by decide) (by decide)

/-- C3: after the chunk loop, a finalize failure whose text contains
UPLOAD_TOKEN_NOT_FOUND is treated as success (the server auto-finalized
the token) exactly when the uploaded offset reached the declared file
size — upload_file then returns the token id without raising; with
offset below the file size the error is re-raised; and a finalize that
returns normally also yields the token id. -/
theorem upload_autofinalize_handling (upload_token_id msg : String)
    (offset file_size : Nat)
    (hmsg : strContains msg "UPLOAD_TOKEN_NOT_FOUND" = true) :
    (file_size ≤ offset →
        uploadFinalizeStep upload_token_id offset file_size (.kalturaError msg)
          = .tokenId upload_token_id)
    ∧ (offset < file_size →
        uploadFinalizeStep upload_token_id offset file_size (.kalturaError msg)
          = .raised msg)
    ∧ uploadFinalizeStep upload_token_id offset file_size .ok
        = .tokenId upload_token_id := by
  refine ⟨?_, ?_, rfl⟩
  · intro h
    simp [uploadFinalizeStep, hmsg, h]
  · intro h
    simp [uploadFinalizeStep, hmsg, Nat.not_le.mpr h]

/-- C3 witness: the theorem applied at a concrete not-found message with
the uploaded offset equal to the file size (auto-finalized case) and,
vacuously instantiable, the re-raise clause. -/
theorem upload_autofinalize_handling_witness :
    (10 ≤ 10 →
        uploadFinalizeStep "tokA" 10 10
          (.kalturaError "Error UPLOAD_TOKEN_NOT_FOUND occurred")
          = .tokenId "tokA")
    ∧ (10 < 10 →
        uploadFinalizeStep "tokA" 10 10
          (.kalturaError "Error UPLOAD_TOKEN_NOT_FOUND occurred")
          = .raised "Error UPLOAD_TOKEN_NOT_FOUND occurred")
    ∧ uploadFinalizeStep "tokA" 10 10 .ok = .tokenId "tokA" :=
  upload_autofinalize_handling "tokA" "Error UPLOAD_TOKEN_NOT_FOUND occurred"
    10 10 (by decide)

/-- C4: during entry creation the token status is re-fetched first; a
fetch failure containing UPLOAD_TOKEN_NOT_FOUND yields the dedicated
FileTypeRestricted error carrying the re-derived extension and MIME type
(the message also names the extension); a successful fetch with a status
other than FULL_UPLOAD yields the entry-creation RuntimeError, not
FileTypeRestricted; any other fetch failure is re-raised; and in every
such error path no add-from-uploaded-file remote call is issued (the
issued flag is false). -/
theorem create_entry_precheck_errors (upload_token_id file_ext : String)
    (mime_detected : Option String) (createResult : String) :
    (∀ msg, strContains msg "UPLOAD_TOKEN_NOT_FOUND" = true →
        create_kaltura_entry upload_token_id (.kalturaError msg) file_ext
            mime_detected createResult
          = (.fileTypeRestricted file_ext mime_detected
              (fileTypeRestrictedMsg file_ext mime_detected), false))
    ∧ (∀ status, status ≠ FULL_UPLOAD →
        create_kaltura_entry upload_token_id (.ok status) file_ext
            mime_detected createResult
          = (.runtimeError ("Upload token " ++ upload_token_id
              ++ " not finalized (status: " ++ toString status ++ ")."), false))
    ∧ (∀ msg, strContains msg "UPLOAD_TOKEN_NOT_FOUND" = false →
        create_kaltura_entry upload_token_id (.kalturaError msg) file_ext
            mime_detected createResult
          = (.kalturaRaised msg, false))
    ∧ strContains (fileTypeRestrictedMsg file_ext mime_detected) file_ext = true := by
  refine ⟨?_, ?_, ?_, ?_⟩
  · intro msg hmsg
    simp [create_kaltura_entry, hmsg]
  · intro status hstatus
    simp [create_kaltura_entry, hstatus]
  · intro msg hmsg
    simp [create_kaltura_entry, hmsg]
  · show subOcc file_ext.data (fileTypeRestrictedMsg file_ext mime_detected).data = true
    have hd : (fileTypeRestrictedMsg file_ext mime_detected).data =
        "The file type ".data ++
          (file_ext.data ++
            (" (".data ++
              ((mime_detected.getD "unknown").data ++
                (") appears to be restricted by your Kaltura account settings. ".data ++
                  ("The upload token was automatically deleted. ".data ++
                    "Please check your Kaltura account configuration to allow this file type.".data))))) := by
      simp [fileTypeRestrictedMsg, String.data_append, List.append_assoc]
    rw [hd]
    exact subOcc_append_left _ _ (subOcc_self_append _ _) _

/-- C4 witness: the theorem instantiated at a concrete restricted `.exe`
upload, with the not-found clause discharged on a concrete message. -/
theorem create_entry_precheck_errors_witness :
    strContains "UPLOAD_TOKEN_NOT_FOUND (id: 77)" "UPLOAD_TOKEN_NOT_FOUND" = true
    ∧ create_kaltura_entry "tok77" (.kalturaError "UPLOAD_TOKEN_NOT_FOUND (id: 77)")
        ".exe" (some "application/x-dosexec") "e1"
        = (.fileTypeRestricted ".exe" (some "application/x-dosexec")
            (fileTypeRestrictedMsg ".exe" (some "application/x-dosexec")), false) :=
  ⟨by decide,
    (create_entry_precheck_errors "tok77" ".exe" (some "application/x-dosexec") "e1").1
      "UPLOAD_TOKEN_NOT_FOUND (id: 77)" (by decide)⟩

theorem transferGo_good (sizes : Nat → Nat) (file_size : Nat)
    (hsz : ∀ i, 1 ≤ sizes i) :
    ∀ fuel offset step, offset < file_size → file_size - offset ≤ fuel →
      goodFrom file_size offset (transferGo sizes file_size fuel step offset) := by
  intro fuel
  induction fuel with
  | zero => intro offset step h hle; omega
  | succ fuel ih =>
      intro offset step h hle
      have hlen1 : 1 ≤ min (sizes step) (file_size - offset) := by
        have := hsz step
        omega
      have hlenle : min (sizes step) (file_size - offset) ≤ file_size - offset :=
        Nat.min_le_right _ _
      rw [transferGo, if_pos h, if_neg (by omega)]
      by_cases hfin : offset + min (sizes step) (file_size - offset) = file_size
      · have hnil : transferGo sizes file_size fuel (step + 1)
            (offset + min (sizes step) (file_size - offset)) = [] := by
          cases fuel with
          | zero => rfl
          | succ f => rw [transferGo, if_neg (by omega)]
        rw [hnil]
        refine ⟨rfl, rfl, rfl, hlen1, hfin, ?_⟩
        simp [hfin]
      · have hlt : offset + min (sizes step) (file_size - offset) < file_size := by
          omega
        have hrec := ih (offset + min (sizes step) (file_size - offset)) (step + 1)
          hlt (by omega)
        cases hrest : transferGo sizes file_size fuel (step + 1)
            (offset + min (sizes step) (file_size - offset)) with
        | nil => rw [hrest] at hrec; simp [goodFrom] at hrec
        | cons r rs =>
            rw [hrest] at hrec
            exact ⟨rfl, rfl, rfl, hlen1, hlt, by simp [Nat.not_le.mpr hlt], hrec⟩

theorem goodFrom_head_offset (file_size : Nat) :
    ∀ (c : ChunkSend) (rest : List ChunkSend) (off : Nat),
      goodFrom file_size off (c :: rest) → c.offset = off := by
  intro c rest off h
  exact h.1

theorem goodFrom_chain (file_size : Nat) :
    ∀ (cs : List ChunkSend) (off : Nat), goodFrom file_size off cs →
      List.Chain' (fun a b => b.offset = a.offset + a.length) cs := by
  intro cs
  induction cs with
  | nil => intro off h; simp [goodFrom] at h
  | cons c rest ih =>
      intro off h
      obtain ⟨h1, -, -, -, hbr⟩ := h
      cases rest with
      | nil => simp
      | cons r rs =>
          obtain ⟨-, -, hg⟩ := hbr
          have hr : r.offset = off + c.length := goodFrom_head_offset _ _ _ _ hg
          rw [List.chain'_cons]
          exact ⟨by rw [hr, h1], ih (off + c.length) hg⟩

theorem goodFrom_mem (file_size : Nat) :
    ∀ (cs : List ChunkSend) (off : Nat), goodFrom file_size off cs →
      ∀ c ∈ cs, 1 ≤ c.length ∧ c.resumeAt = c.offset
        ∧ c.resume = decide (0 < c.offset)
        ∧ (c.finalChunk = true ↔ file_size ≤ c.offset + c.length) := by
  intro cs
  induction cs with
  | nil => intro off h; simp [goodFrom] at h
  | cons c rest ih =>
      intro off h d hd
      obtain ⟨h1, h2, h3, h4, hbr⟩ := h
      rcases List.mem_cons.mp hd with hdc | hdrest
      · subst hdc
        refine ⟨h4, by rw [h2, h1], by rw [h3, h1], ?_⟩
        cases rest with
        | nil =>
            obtain ⟨heq, hfin⟩ := hbr
            rw [h1, hfin]
            simp [heq]
        | cons r rs =>
            obtain ⟨hlt, hfin, -⟩ := hbr
            rw [h1, hfin]
            simp
            omega
      · cases rest with
        | nil => simp at hdrest
        | cons r rs =>
            obtain ⟨-, -, hg⟩ := hbr
            exact ih (off + c.length) hg d hdrest

theorem goodFrom_getD_resume (file_size : Nat) :
    ∀ (cs : List ChunkSend) (off : Nat), goodFrom file_size off cs →
      ∀ i, i < cs.length → (cs.getD i dfltChunk).resume = decide (0 < off + i) := by
  intro cs
  induction cs with
  | nil => intro off h; simp [goodFrom] at h
  | cons c rest ih =>
      intro off h i hi
      obtain ⟨-, -, h3, h4, hbr⟩ := h
      cases i with
      | zero => simpa using h3
      | succ j =>
          cases rest with
          | nil => simp at hi
          | cons r rs =>
              obtain ⟨-, -, hg⟩ := hbr
              have := ih (off + c.length) hg j (by simpa using hi)
              rw [List.getD_cons_succ, this]
              have hl : 0 < off + c.length + j := by omega
              have hr : 0 < off + (j + 1) := by omega
              simp [hl, hr]

theorem goodFrom_countP (file_size : Nat) :
    ∀ (cs : List ChunkSend) (off : Nat), goodFrom file_size off cs →
      cs.countP (fun c => c.finalChunk) = 1 := by
  intro cs
  induction cs with
  | nil => intro off h; simp [goodFrom] at h
  | cons c rest ih =>
      intro off h
      obtain ⟨-, -, -, -, hbr⟩ := h
      cases rest with
      | nil =>
          obtain ⟨-, hfin⟩ := hbr
          simp [List.countP_cons, hfin]
      | cons r rs =>
          obtain ⟨-, hfin, hg⟩ := hbr
          rw [List.countP_cons]
          simp [hfin, ih (off + c.length) hg]

/-- C2: for every non-empty file and every sequence of positive chunk
sizes, the chunk sends of `upload_file` start at offset 0, have
contiguous strictly-increasing offsets (each chunk is non-empty and each
next offset is the previous offset plus the previous length), always
carry `resumeAt` equal to the chunk offset, carry `resume = false`
exactly on the first chunk and `true` on all later ones, and set the
`finalChunk` flag exactly once — on the chunk for which
`offset + length` reaches the file size. -/
theorem transfer_chunk_layout (sizes : Nat → Nat) (file_size : Nat)
    (hfs : 0 < file_size) (hsz : ∀ i, 1 ≤ sizes i) :
    (transfer sizes file_size ≠ []
        ∧ ((transfer sizes file_size).getD 0 dfltChunk).offset = 0)
    ∧ List.Chain' (fun a b => b.offset = a.offset + a.length)
        (transfer sizes file_size)
    ∧ (∀ c ∈ transfer sizes file_size, 1 ≤ c.length ∧ c.resumeAt = c.offset
        ∧ (c.finalChunk = true ↔ file_size ≤ c.offset + c.length))
    ∧ (∀ i, i < (transfer sizes file_size).length →
        ((transfer sizes file_size).getD i dfltChunk).resume = decide (0 < i))
    ∧ (transfer sizes file_size).countP (fun c => c.finalChunk) = 1 := by
  have hg : goodFrom file_size 0 (transfer sizes file_size) :=
    transferGo_good sizes file_size hsz file_size 0 0 hfs (by omega)
  refine ⟨?_, goodFrom_chain _ _ _ hg, ?_, ?_, goodFrom_countP _ _ _ hg⟩
  · cases hcs : transfer sizes file_size with
    | nil => rw [hcs] at hg; simp [goodFrom] at hg
    | cons c rest =>
        rw [hcs] at hg
        exact ⟨by simp, by simpa using goodFrom_head_offset _ _ _ _ hg⟩
  · intro c hc
    obtain ⟨hl, hra, -, hfin⟩ := goodFrom_mem _ _ _ hg c hc
    exact ⟨hl, hra, hfin⟩
  · intro i hi
    simpa using goodFrom_getD_resume _ _ _ hg i hi

/-- C2 witness: the theorem applied to a 5-byte file transferred with a
constant 2-byte chunk size. -/
theorem transfer_chunk_layout_witness :
    ((transfer (fun _ => 2) 5 ≠ []
        ∧ ((transfer (fun _ => 2) 5).getD 0 dfltChunk).offset = 0)
    ∧ List.Chain' (fun a b => b.offset = a.offset + a.length)
        (transfer (fun _ => 2) 5)
    ∧ (∀ c ∈ transfer (fun _ => 2) 5, 1 ≤ c.length ∧ c.resumeAt = c.offset
        ∧ (c.finalChunk = true ↔ 5 ≤ c.offset + c.length))
    ∧ (∀ i, i < (transfer (fun _ => 2) 5).length →
        ((transfer (fun _ => 2) 5).getD i dfltChunk).resume = decide (0 < i))
    ∧ (transfer (fun _ => 2) 5).countP (fun c => c.finalChunk) = 1) :=
  transfer_chunk_layout (fun _ => 2) 5 (by decide) (fun i => by norm_num)

theorem delay_list_cons (delay b : ℚ) (k : Nat) :
    (List.range (k + 1)).map (fun i => delay * b ^ i)
      = delay :: (List.range k).map (fun i => delay * b * b ^ i) := by
  rw [List.range_succ_eq_map, List.map_cons, List.map_map]
  simp only [pow_zero, mul_one]
  congr 1
  apply List.map_congr_left
  intro i _
  simp only [Function.comp_apply, pow_succ]
  ring

theorem retryGo_success {α : Type} (op : Nat → Except RaisedError α) (b : ℚ) (v : α) :
    ∀ (k attempt remaining : Nat) (delay : ℚ), k < remaining →
      (∀ j, j < k → ∃ e : RaisedError, e.retryable = true ∧ op (attempt + j) = .error e) →
      op (attempt + k) = .ok v →
      retryGo op b remaining attempt delay
        = (some (.ok v), (List.range k).map (fun i => delay * b ^ i)) := by
  intro k
  induction k with
  | zero =>
      intro attempt remaining delay hk hfail hok
      obtain ⟨r, rfl⟩ : ∃ r, remaining = r + 1 := ⟨remaining - 1, by omega⟩
      rw [Nat.add_zero] at hok
      rw [retryGo, hok]
      simp
  | succ k ih =>
      intro attempt remaining delay hk hfail hok
      obtain ⟨r, rfl⟩ : ∃ r, remaining = r + 1 := ⟨remaining - 1, by omega⟩
      obtain ⟨e, he, hope⟩ := hfail 0 (by omega)
      rw [Nat.add_zero] at hope
      rw [retryGo, hope]
      simp only [he, if_true]
      rw [if_neg (by omega)]
      have hfail' : ∀ j, j < k →
          ∃ e : RaisedError, e.retryable = true ∧ op (attempt + 1 + j) = .error e := by
        intro j hj
        obtain ⟨e', he', hope'⟩ := hfail (j + 1) (by omega)
        refine ⟨e', he', ?_⟩
        rw [show attempt + 1 + j = attempt + (j + 1) by omega]
        exact hope'
      have hok' : op (attempt + 1 + k) = .ok v := by
        rw [show attempt + 1 + k = attempt + (k + 1) by omega]
        exact hok
      rw [ih (attempt + 1) r (delay * b) (by omega) hfail' hok']
      rw [delay_list_cons]

theorem retryGo_exhaust {α : Type} (op : Nat → Except RaisedError α) (b : ℚ)
    (errs : Nat → RaisedError) :
    ∀ (n attempt : Nat) (delay : ℚ), 1 ≤ n →
      (∀ j, j < n → op (attempt + j) = .error (errs (attempt + j))
        ∧ (errs (attempt + j)).retryable = true) →
      retryGo op b n attempt delay
        = (some (.error (errs (attempt + (n - 1)))),
           (List.range (n - 1)).map (fun i => delay * b ^ i)) := by
  intro n
  induction n with
  | zero => intro attempt delay h1; omega
  | succ m ih =>
      intro attempt delay h1 hfail
      obtain ⟨hop, hret⟩ := hfail 0 (by omega)
      rw [Nat.add_zero] at hop hret
      rw [retryGo, hop]
      simp only [hret, if_true]
      by_cases hm : m = 0
      · subst hm
        simp
      · rw [if_neg hm]
        obtain ⟨m', rfl⟩ : ∃ m', m = m' + 1 := ⟨m - 1, by omega⟩
        have hfail' : ∀ j, j < m' + 1 →
            op (attempt + 1 + j) = .error (errs (attempt + 1 + j))
              ∧ (errs (attempt + 1 + j)).retryable = true := by
          intro j hj
          have := hfail (j + 1) (by omega)
          rwa [show attempt + (j + 1) = attempt + 1 + j by omega] at this
        rw [ih (attempt + 1) (delay * b) (by omega) hfail']
        rw [show attempt + 1 + (m' + 1 - 1) = attempt + (m' + 1 + 1 - 1) by omega]
        rw [show m' + 1 + 1 - 1 = (m' + 1 - 1) + 1 by omega, delay_list_cons]

theorem retryGo_nonretryable {α : Type} (op : Nat → Except RaisedError α) (b : ℚ) :
    ∀ (n attempt : Nat) (delay : ℚ) (e : RaisedError), 1 ≤ n →
      e.retryable = false → op attempt = .error e →
      retryGo op b n attempt delay = (some (.error e), []) := by
  intro n attempt delay e h1 he hop
  obtain ⟨r, rfl⟩ : ∃ r, n = r + 1 := ⟨n - 1, by omega⟩
  rw [retryGo, hop]
  simp [he]

/-- C6: for the retry decorator, an operation that fails with retryable
errors on the first k attempts (k below the attempt budget) and then
succeeds makes `run` return the success value after exactly k sleeps of
initialDelay, initialDelay*backoff, ..., initialDelay*backoff^(k-1); an
operation that fails retryably on every attempt has the final (the
maxAttempts-th) error propagated unchanged after maxAttempts - 1 sleeps;
and an error whose kind is not retryable propagates at once with no
sleep. -/
theorem retry_policy_spec :
    ∀ (α : Type) (op : Nat → Except RaisedError α) (maxAttempts : Nat)
      (initialDelay backoff : ℚ),
      (∀ (k : Nat) (v : α), k < maxAttempts →
          (∀ j, j < k → ∃ e : RaisedError, e.retryable = true ∧ op (1 + j) = .error e) →
          op (1 + k) = .ok v →
          retryRun op maxAttempts initialDelay backoff
            = (some (.ok v),
               (List.range k).map (fun i => initialDelay * backoff ^ i)))
      ∧ (∀ errs : Nat → RaisedError, 1 ≤ maxAttempts →
          (∀ j, j < maxAttempts → op (1 + j) = .error (errs (1 + j))
            ∧ (errs (1 + j)).retryable = true) →
          retryRun op maxAttempts initialDelay backoff
            = (some (.error (errs maxAttempts)),
               (List.range (maxAttempts - 1)).map
                 (fun i => initialDelay * backoff ^ i)))
      ∧ (∀ e : RaisedError, 1 ≤ maxAttempts → e.retryable = false →
          op 1 = .error e →
          retryRun op maxAttempts initialDelay backoff = (some (.error e), [])) := by
  intro α op maxAttempts initialDelay backoff
  refine ⟨?_, ?_, ?_⟩
  · intro k v hk hfail hok
    exact retryGo_success op backoff v k 1 maxAttempts initialDelay hk hfail hok
  · intro errs h1 hfail
    have := retryGo_exhaust op backoff errs maxAttempts 1 initialDelay h1 hfail
    rwa [show 1 + (maxAttempts - 1) = maxAttempts by omega] at this
  · intro e h1 he hop
    exact retryGo_nonretryable op backoff maxAttempts 1 initialDelay e h1 he hop

/-- C6 witness: the success clause applied to the concrete operation that
fails twice then succeeds, under budget 5, initial delay 1 and backoff 2. -/
theorem retry_policy_spec_witness :
    retryRun opC6 5 1 2
      = (some (.ok 42), (List.range 2).map (fun i => (1 : ℚ) * 2 ^ i)) :=
  (retry_policy_spec Nat opC6 5 1 2).1 2 42 (by norm_num)
    (by
      intro j hj
      interval_cases j <;> exact ⟨⟨true, "neterr"⟩, rfl, rfl⟩)
    rfl

/-- C7: with adaptive mode on and a positive observed duration t, the new
chunk size (in bytes, i.e. 1024 times the KB state) is the average of the
previous size and the ideal size (s/t)*targetSeconds, clamped to
[minBytes, maxBytes]; with adaptive mode off, or with t ≤ 0, the chunk
size is left unchanged. -/
theorem adjust_chunk_size_spec (cfg : UploaderCfg) (kb t s : ℚ) :
    (cfg.adaptive_chunking = true → 0 < t →
        1024 * adjust_chunk_size cfg kb t s
          = max (1024 * cfg.min_chunk_size_kb)
              (min (1024 * cfg.max_chunk_size_kb)
                ((1024 * kb + (s / t) * cfg.target_upload_time) / 2)))
    ∧ (cfg.adaptive_chunking = false → adjust_chunk_size cfg kb t s = kb)
    ∧ (t ≤ 0 → adjust_chunk_size cfg kb t s = kb) := by
  refine ⟨?_, ?_, ?_⟩
  · intro ha ht
    unfold adjust_chunk_size
    rw [if_neg (by simp [ha, not_le.mpr ht])]
    rw [mul_max_of_nonneg _ _ (by norm_num : (0:ℚ) ≤ 1024),
        mul_min_of_nonneg _ _ (by norm_num : (0:ℚ) ≤ 1024)]
    congr 1
    congr 1
    have ht' : t ≠ 0 := ne_of_gt ht
    field_simp
    ring
  · intro ha
    unfold adjust_chunk_size
    rw [if_pos]
    simp [ha]
  · intro ht
    unfold adjust_chunk_size
    rw [if_pos]
    right
    exact ht

/-- C7 witness: the adaptive clause evaluated at a concrete step (2 MB
chunk observed for 2 seconds) and the skip clauses at a disabled
configuration and a non-positive duration. -/
theorem adjust_chunk_size_spec_witness :
    (1024 * adjust_chunk_size
        ({ adaptive_chunking := true, target_upload_time := 5,
           min_chunk_size_kb := 1024, max_chunk_size_kb := 102400 } : UploaderCfg)
        2048 2 (2048 * 1024)
      = max (1024 * (1024 : ℚ))
          (min (1024 * (102400 : ℚ))
            ((1024 * 2048 + ((2048 * 1024) / 2) * 5) / 2)))
    ∧ adjust_chunk_size
        ({ adaptive_chunking := false, target_upload_time := 5,
           min_chunk_size_kb := 1024, max_chunk_size_kb := 102400 } : UploaderCfg)
        2048 2 (2048 * 1024) = 2048
    ∧ adjust_chunk_size
        ({ adaptive_chunking := true, target_upload_time := 5,
           min_chunk_size_kb := 1024, max_chunk_size_kb := 102400 } : UploaderCfg)
        2048 0 (2048 * 1024) = 2048 :=
  ⟨(adjust_chunk_size_spec _ 2048 2 (2048 * 1024)).1 rfl (by norm_num),
   (adjust_chunk_size_spec _ 2048 2 (2048 * 1024)).2.1 rfl,
   (adjust_chunk_size_spec _ 2048 0 (2048 * 1024)).2.2 (by norm_num)⟩

/-- C8 counterexample: the constructor accepts `chunk_size_kb = 1`
together with the default bounds `min = 1024 KB`, `max = 102400 KB`
without clamping, so immediately after construction the stored chunk size
(1 KB) lies below the configured minimum and the claimed invariant fails
at construction time. -/
theorem chunk_size_invariant_init_cex :
    mkUploader 1 true 5 1024 102400
      = .ok { cfg := { adaptive_chunking := true, target_upload_time := 5,
                       min_chunk_size_kb := 1024, max_chunk_size_kb := 102400 },
              chunk_size_kb := 1 }
    ∧ (mkUploader 1 true 5 1024 102400).toOption.map
        (fun u => decide (u.cfg.min_chunk_size_kb ≤ u.chunk_size_kb))
      = some false := by
  constructor
  · rfl
  · decide

theorem adjust_chunk_size_bounds (cfg : UploaderCfg)
    (hminmax : cfg.min_chunk_size_kb ≤ cfg.max_chunk_size_kb)
    (kb t s : ℚ) (hmin : cfg.min_chunk_size_kb ≤ kb)
    (hmax : kb ≤ cfg.max_chunk_size_kb) :
    cfg.min_chunk_size_kb ≤ adjust_chunk_size cfg kb t s
      ∧ adjust_chunk_size cfg kb t s ≤ cfg.max_chunk_size_kb := by
  unfold adjust_chunk_size
  split_ifs with h
  · exact ⟨hmin, hmax⟩
  · exact ⟨le_max_left _ _, max_le hminmax (min_le_left _ _)⟩

theorem runAdaptive_bounds (cfg : UploaderCfg)
    (hminmax : cfg.min_chunk_size_kb ≤ cfg.max_chunk_size_kb) :
    ∀ (obss : List (ℚ × ℚ)) (kb0 : ℚ),
      cfg.min_chunk_size_kb ≤ kb0 → kb0 ≤ cfg.max_chunk_size_kb →
      cfg.min_chunk_size_kb ≤ runAdaptive cfg kb0 obss
        ∧ runAdaptive cfg kb0 obss ≤ cfg.max_chunk_size_kb := by
  intro obss
  induction obss with
  | nil => intro kb0 h1 h2; exact ⟨h1, h2⟩
  | cons o os ih =>
      intro kb0 h1 h2
      have hstep := adjust_chunk_size_bounds cfg hminmax kb0 o.1 o.2 h1 h2
      have : runAdaptive cfg kb0 (o :: os)
          = runAdaptive cfg (stepChunkSize cfg kb0 o) os := rfl
      rw [this]
      exact ih (stepChunkSize cfg kb0 o) hstep.1 hstep.2

/-- C8 amended: provided the configured bounds are ordered
(minBytes ≤ maxBytes) and the constructor's initial chunk size lies
within them (as the defaults do — the constructor itself does not clamp,
see the counterexample), the invariant
minBytes ≤ currentSizeBytes ≤ maxBytes holds after every adaptive resize
step, for any sequence of observed durations and sizes including zero and
negative durations. -/
theorem chunk_size_invariant_preserved (cfg : UploaderCfg)
    (hminmax : cfg.min_chunk_size_kb ≤ cfg.max_chunk_size_kb)
    (kb0 : ℚ) (h0min : cfg.min_chunk_size_kb ≤ kb0)
    (h0max : kb0 ≤ cfg.max_chunk_size_kb) (obss : List (ℚ × ℚ)) :
    1024 * cfg.min_chunk_size_kb ≤ 1024 * runAdaptive cfg kb0 obss
      ∧ 1024 * runAdaptive cfg kb0 obss ≤ 1024 * cfg.max_chunk_size_kb := by
  have h := runAdaptive_bounds cfg hminmax obss kb0 h0min h0max
  constructor
  · exact mul_le_mul_of_nonneg_left h.1 (by norm_num)
  · exact mul_le_mul_of_nonneg_left h.2 (by norm_num)

/-- C8 amended witness: the invariant after a concrete run whose observed
durations include a zero and a negative value. -/
theorem chunk_size_invariant_preserved_witness :
    1024 * ({ adaptive_chunking := true, target_upload_time := 5,
              min_chunk_size_kb := 1024, max_chunk_size_kb := 102400 }
             : UploaderCfg).min_chunk_size_kb
      ≤ 1024 * runAdaptive
          ({ adaptive_chunking := true, target_upload_time := 5,
             min_chunk_size_kb := 1024, max_chunk_size_kb := 102400 } : UploaderCfg)
          2048 [(2, 4096), (0, 1), (-1, 7)]
    ∧ 1024 * runAdaptive
          ({ adaptive_chunking := true, target_upload_time := 5,
             min_chunk_size_kb := 1024, max_chunk_size_kb := 102400 } : UploaderCfg)
          2048 [(2, 4096), (0, 1), (-1, 7)]
      ≤ 1024 * ({ adaptive_chunking := true, target_upload_time := 5,
                  min_chunk_size_kb := 1024, max_chunk_size_kb := 102400 }
                 : UploaderCfg).max_chunk_size_kb :=
  chunk_size_invariant_preserved _ (by norm_num) 2048 (by norm_num) (by norm_num)
    [(2, 4096), (0, 1), (-1, 7)]

end KalturaSpec
